import Mathlib

/-
Shallow embedding of the handshake core of src/enclave.c (uwg enclave).

Bytes are modelled as Nat, byte arrays as List Nat.  The external crypto
primitives (BLAKE2s hash, HMAC-BLAKE2s, X25519, ChaCha20-Poly1305, keyed
BLAKE2s MAC) are not part of this repository; they are abstracted as the
fields of a Crypto structure, and theorems that need algebraic facts about
them (DH agreement, AEAD round trips) take those facts as hypotheses.
Fixed array sizes of the C code (32-byte keys, 12-byte timestamps, ...) are
not enforced by the types; where a claim depends on a size, the size is a
hypothesis of the theorem.
-/

/-- Abstract crypto primitives used by enclave.c.  hash models ws_hash over
the concatenated iovec segments; hmac models the hmac() helper (key first,
then input); dh models the raw X25519 output written by dh() (the C wrapper
fails exactly when X25519 reports an all-zero result, see dhfail below);
aeadSeal and aeadOpen model aead() with open=0 and open=1, keyed by key with
associated data h; mac models ws_mac/ws_validmac with a given mac1 key. -/
structure Crypto where
  hash : List Nat → List Nat
  hmac : List Nat → List Nat → List Nat
  dh : List Nat → List Nat → List Nat
  aeadSeal : List Nat → List Nat → List Nat → List Nat
  aeadOpen : List Nat → List Nat → List Nat → Option (List Nat)
  mac : List Nat → List Nat → List Nat

/-- The dh() wrapper in enclave.c (line 291) returns -1 exactly when X25519
returned 0, which happens when the shared secret is all-zero. -/
def dhfail (s : List Nat) : Bool :=
  s.all (fun b => b == 0)

/-- First step of kdfn (enclave.c line 202): t0 = Hmac(key, in).  A NULL
"in" pointer in the C code means HMAC over the empty input, which is the
inp = [] case here. -/
def kdfT0 (C : Crypto) (inp key : List Nat) : List Nat :=
  C.hmac key inp

/-- kdf1 (enclave.c line 241): derive one key. -/
def kdf1 (C : Crypto) (inp key : List Nat) : List Nat :=
  C.hmac (kdfT0 C inp key) [1]

/-- kdfn with two outputs (enclave.c line 202): out1 = Hmac(t0, 0x1),
out2 = Hmac(t0, out1 || 0x2). -/
def kdf2 (C : Crypto) (inp key : List Nat) : List Nat × List Nat :=
  let t0 := kdfT0 C inp key
  let o1 := C.hmac t0 [1]
  (o1, C.hmac t0 (o1 ++ [2]))

/-- kdfn with three outputs: out3 = Hmac(t0, out2 || 0x3). -/
def kdf3 (C : Crypto) (inp key : List Nat) : List Nat × List Nat × List Nat :=
  let t0 := kdfT0 C inp key
  let o1 := C.hmac t0 [1]
  let o2 := C.hmac t0 (o1 ++ [2])
  (o1, o2, C.hmac t0 (o2 ++ [3]))

/-- Handshake state, struct hs (enclave.c line 59).  The peer back-pointer
is represented by position in the interface peer table instead. -/
structure Hs where
  sessid : Nat
  peersessid : Nat
  epriv : List Nat
  epubi : List Nat
  c : List Nat
  h : List Nat
deriving DecidableEq

/-- Peer (enclave.c line 75).  The ifn back-pointer is dropped; functions
take the interface explicitly, as the C call sites pass peer->ifn. -/
structure Peer where
  id : Nat
  pubkey : List Nat
  pubkeyhash : List Nat
  mac1key : List Nat
  dhsecret : List Nat
  psk : List Nat
  hs : Hs
  recvts : List Nat
deriving DecidableEq

/-- Interface, struct ifn (enclave.c line 94), with its ordered peer table. -/
structure Ifn where
  id : Nat
  privkey : List Nat
  pubkey : List Nat
  pubkeyhash : List Nat
  mac1key : List Nat
  cookiekey : List Nat
  peers : List Peer
deriving DecidableEq

/-- Wire message MSGWGINIT, struct msgwginit: type, sender, ephemeral,
static (48-byte enc_static ciphertext), timestamp (28-byte enc_ts
ciphertext), mac1, mac2. -/
structure MsgWgInit where
  typ : Nat
  sender : Nat
  ephemeral : List Nat
  stat : List Nat
  timestamp : List Nat
  mac1 : List Nat
  mac2 : List Nat
deriving DecidableEq

/-- Wire message MSGWGRESP, struct msgwgresp. -/
structure MsgWgResp where
  typ : Nat
  sender : Nat
  receiver : Nat
  ephemeral : List Nat
  empty : List Nat
  mac1 : List Nat
  mac2 : List Nat
deriving DecidableEq

/-- MSGSESSKEYS payload built by makemsgsesskeys (enclave.c line 261). -/
structure MsgSessKeys where
  sendkey : List Nat
  recvkey : List Nat
  sessid : Nat
  peersessid : Nat
deriving DecidableEq

def dummyHs : Hs :=
  { sessid := 0, peersessid := 0, epriv := [], epubi := [], c := [], h := [] }

def dummyPeer : Peer :=
  { id := 0, pubkey := [], pubkeyhash := [], mac1key := [], dhsecret := [],
    psk := [], hs := dummyHs, recvts := [] }

def dummyMwi : MsgWgInit :=
  { typ := 0, sender := 0, ephemeral := [], stat := [], timestamp := [],
    mac1 := [], mac2 := [] }

def dummyMwr : MsgWgResp :=
  { typ := 0, sender := 0, receiver := 0, ephemeral := [], empty := [],
    mac1 := [], mac2 := [] }

/-- The bytes covered by mac1 of a MSGWGINIT: everything up to the mac1
field (type, sender, ephemeral, enc_static, enc_ts); MAC1OFFSETINIT. -/
def initMacData (m : MsgWgInit) : List Nat :=
  m.typ :: m.sender :: (m.ephemeral ++ m.stat ++ m.timestamp)

/-- The bytes covered by mac1 of a MSGWGRESP: everything up to the mac1
field (type, sender, receiver, ephemeral, enc_empty); MAC1OFFSETRESP. -/
def respMacData (m : MsgWgResp) : List Nat :=
  m.typ :: m.sender :: m.receiver :: (m.ephemeral ++ m.empty)

/-- Linear scan of findifnpeerbypubkey (enclave.c line 327), returning the
index of the first peer whose pubkey matches. -/
def findpeerbypubkey : List Peer → List Nat → Option Nat
  | [], _ => none
  | p :: ps, pk =>
    if p.pubkey = pk then some 0
    else Option.map (fun n => n + 1) (findpeerbypubkey ps pk)

/-- Linear scan of findifnpeerbysessid (enclave.c line 350). -/
def findpeerbysessid : List Peer → Nat → Option Nat
  | [], _ => none
  | p :: ps, sid =>
    if p.hs.sessid = sid then some 0
    else Option.map (fun n => n + 1) (findpeerbysessid ps sid)

/-- findifnpeerbyid (enclave.c line 371): bounds check, then a direct index
into the peer table. -/
def findifnpeerbyid (ifn : Ifn) (peerid : Nat) : Option Peer :=
  if peerid ≥ ifn.peers.length then none
  else some (ifn.peers.getD peerid dummyPeer)

/-- Byte-wise unsigned comparison with memcmp(3) semantics on equal-length
lists (first differing byte decides). -/
def memcmpBytes : List Nat → List Nat → Ordering
  | [], [] => Ordering.eq
  | [], _ :: _ => Ordering.lt
  | _ :: _, [] => Ordering.gt
  | a :: as, b :: bs =>
    if a < b then Ordering.lt
    else if b < a then Ordering.gt
    else memcmpBytes as bs

def ordIsGT : Ordering → Bool
  | Ordering.gt => true
  | _ => false

/-- Helper for reasoning about memcmp over concatenations. -/
def ordThen : Ordering → Ordering → Ordering
  | Ordering.eq, o => o
  | o, _ => o

/-- The replay comparison of upgradehsinit (enclave.c line 540):
memcmp(tmpts, peer->recvts, sizeof(tmpts)) with sizeof(tmpts) = 28.  tmpts
is the static 12+16 byte scratch buffer; the AEAD open writes only the 12
decrypted timestamp bytes and the buffer is statically zero-initialised and
written nowhere else, so its tail is 16 zero bytes.  recvts is a 12-byte
field, so the comparison also reads the 16 bytes that happen to follow it
in memory; those unknowable bytes are the oob parameter here. -/
def replaycmp (ts recvts oob : List Nat) : Ordering :=
  memcmpBytes (List.take 28 (ts ++ List.replicate 16 0))
    (List.take 28 (recvts ++ oob))

/-- Pointer comparison p != *peer at enclave.c line 513, with peers
identified by their slot in the interface table; a NULL asserted peer
(proxy path) never mismatches. -/
def assertedMismatch : Option Nat → Nat → Bool
  | none, _ => false
  | some a, i => decide (a ≠ i)

/-- Successful result of upgradehsinit: the selected peer slot, the peer
value after the commit, and the message (with stat and timestamp sealed in
place on the initiator path). -/
structure UhiOk where
  peerIdx : Nat
  peer : Peer
  mwi : MsgWgInit
deriving DecidableEq

def dummyUhi : UhiOk :=
  { peerIdx := 0, peer := dummyPeer, mwi := dummyMwi }

/-- Responder chain of upgradehsinit, hash after mixing in the ephemeral:
tmph = Hash(ifn->pubkeyhash || mwi->ephemeral) (enclave.c lines 479, 484). -/
def uhiH1r (C : Crypto) (ifn : Ifn) (mwi : MsgWgInit) : List Nat :=
  C.hash (ifn.pubkeyhash ++ mwi.ephemeral)

/-- Chaining key after kdf1(tmpc, mwi->ephemeral, conshash) (line 486). -/
def uhiC1 (C : Crypto) (cons : List Nat) (mwi : MsgWgInit) : List Nat :=
  kdf1 C mwi.ephemeral cons

/-- Responder DH: dh(k, ifn->privkey, mwi->ephemeral) (line 490). -/
def uhiK1r (C : Crypto) (ifn : Ifn) (mwi : MsgWgInit) : List Nat :=
  C.dh ifn.privkey mwi.ephemeral

/-- kdfn(iov{tmpc,k}, 2, k, tmpc) (line 501): new tmpc and AEAD key. -/
def uhiCK2r (C : Crypto) (cons : List Nat) (ifn : Ifn) (mwi : MsgWgInit) :
    List Nat × List Nat :=
  kdf2 C (uhiK1r C ifn mwi) (uhiC1 C cons mwi)

/-- Responder open of mwi->stat (line 506). -/
def uhiStatPt (C : Crypto) (cons : List Nat) (ifn : Ifn) (mwi : MsgWgInit) :
    Option (List Nat) :=
  C.aeadOpen (uhiCK2r C cons ifn mwi).2 (uhiH1r C ifn mwi) mwi.stat

/-- appendhash(tmph, mwi->stat) (line 525), responder side. -/
def uhiH2r (C : Crypto) (_cons : List Nat) (ifn : Ifn) (mwi : MsgWgInit) :
    List Nat :=
  C.hash (uhiH1r C ifn mwi ++ mwi.stat)

/-- kdfn(iov{tmpc,k}, 2, peer->dhsecret, tmpc) (line 531), responder. -/
def uhiCK3r (C : Crypto) (cons : List Nat) (ifn : Ifn) (mwi : MsgWgInit)
    (p : Peer) : List Nat × List Nat :=
  kdf2 C p.dhsecret (uhiCK2r C cons ifn mwi).1

/-- Responder open of mwi->timestamp (line 536). -/
def uhiTs (C : Crypto) (cons : List Nat) (ifn : Ifn) (mwi : MsgWgInit)
    (p : Peer) : Option (List Nat) :=
  C.aeadOpen (uhiCK3r C cons ifn mwi p).2 (uhiH2r C cons ifn mwi)
    mwi.timestamp

/-- appendhash(tmph, mwi->timestamp) (line 557), responder side. -/
def uhiH3r (C : Crypto) (cons : List Nat) (ifn : Ifn) (mwi : MsgWgInit) :
    List Nat :=
  C.hash (uhiH2r C cons ifn mwi ++ mwi.timestamp)

/-- Initiator chain: tmph seeded from the peer pubkeyhash (line 481). -/
def uhiH1i (C : Crypto) (p : Peer) (mwi : MsgWgInit) : List Nat :=
  C.hash (p.pubkeyhash ++ mwi.ephemeral)

/-- Initiator DH: dh(k, peer->hs->epriv, peer->pubkey) (line 493). -/
def uhiK1i (C : Crypto) (p : Peer) : List Nat :=
  C.dh p.hs.epriv p.pubkey

def uhiCK2i (C : Crypto) (cons : List Nat) (p : Peer) (mwi : MsgWgInit) :
    List Nat × List Nat :=
  kdf2 C (uhiK1i C p) (uhiC1 C cons mwi)

/-- Initiator seal of the interface static pubkey into mwi->stat
(line 518). -/
def uhiStatCt (C : Crypto) (cons : List Nat) (ifnpub : List Nat) (p : Peer)
    (mwi : MsgWgInit) : List Nat :=
  C.aeadSeal (uhiCK2i C cons p mwi).2 (uhiH1i C p mwi) ifnpub

def uhiH2i (C : Crypto) (cons : List Nat) (ifnpub : List Nat) (p : Peer)
    (mwi : MsgWgInit) : List Nat :=
  C.hash (uhiH1i C p mwi ++ uhiStatCt C cons ifnpub p mwi)

def uhiCK3i (C : Crypto) (cons : List Nat) (p : Peer) (mwi : MsgWgInit) :
    List Nat × List Nat :=
  kdf2 C p.dhsecret (uhiCK2i C cons p mwi).1

/-- Initiator in-place seal of the 12 plaintext timestamp bytes
(line 552): inlen is sizeof(mwi->timestamp) - TAGLEN = 12. -/
def uhiTsCt (C : Crypto) (cons : List Nat) (ifnpub : List Nat) (p : Peer)
    (mwi : MsgWgInit) : List Nat :=
  C.aeadSeal (uhiCK3i C cons p mwi).2 (uhiH2i C cons ifnpub p mwi)
    (List.take 12 mwi.timestamp)

def uhiH3i (C : Crypto) (cons : List Nat) (ifnpub : List Nat) (p : Peer)
    (mwi : MsgWgInit) : List Nat :=
  C.hash (uhiH2i C cons ifnpub p mwi ++ uhiTsCt C cons ifnpub p mwi)

/-- Responder branch of upgradehsinit (enclave.c line 467, responder = 1).
Every early return -1 of the C code is a none here; the writes to the
persistent fields peer->recvts, hs->epubi (lines 547-549) and hs->c, hs->h
(lines 559-560) all happen after the last possible failure, exactly as in
the C control flow.  The memcpy of recvts copies MIN(12, 28) = 12 bytes
out of the tmpts scratch buffer. -/
def upgradehsinitResp (C : Crypto) (cons : List Nat) (ifn : Ifn)
    (mwi : MsgWgInit) (asserted : Option Nat) (oob : List Nat) :
    Option UhiOk :=
  if dhfail (uhiK1r C ifn mwi) then none
  else
    match uhiStatPt C cons ifn mwi with
    | none => none
    | some statpt =>
      match findpeerbypubkey ifn.peers statpt with
      | none => none
      | some pIdx =>
        if assertedMismatch asserted pIdx then none
        else
          match uhiTs C cons ifn mwi (ifn.peers.getD pIdx dummyPeer) with
          | none => none
          | some ts =>
            if ordIsGT (replaycmp ts
                (ifn.peers.getD pIdx dummyPeer).recvts oob) then
              some { peerIdx := pIdx
                     peer :=
                       { ifn.peers.getD pIdx dummyPeer with
                         recvts := List.take 12 (ts ++ List.replicate 16 0)
                         hs :=
                           { (ifn.peers.getD pIdx dummyPeer).hs with
                             epubi := mwi.ephemeral
                             c := (uhiCK3r C cons ifn mwi
                               (ifn.peers.getD pIdx dummyPeer)).1
                             h := uhiH3r C cons ifn mwi } }
                     mwi := mwi }
            else none

/-- Initiator branch of upgradehsinit (responder = 0, *peer non NULL):
seals stat and timestamp into the message and commits hs->c, hs->h. -/
def upgradehsinitInit (C : Crypto) (cons : List Nat) (ifn : Ifn)
    (mwi : MsgWgInit) (a : Nat) : Option UhiOk :=
  if dhfail (uhiK1i C (ifn.peers.getD a dummyPeer)) then none
  else
    some { peerIdx := a
           peer :=
             { ifn.peers.getD a dummyPeer with
               hs :=
                 { (ifn.peers.getD a dummyPeer).hs with
                   c := (uhiCK3i C cons (ifn.peers.getD a dummyPeer) mwi).1
                   h := uhiH3i C cons ifn.pubkey
                     (ifn.peers.getD a dummyPeer) mwi } }
           mwi :=
             { mwi with
               stat := uhiStatCt C cons ifn.pubkey
                 (ifn.peers.getD a dummyPeer) mwi
               timestamp := uhiTsCt C cons ifn.pubkey
                 (ifn.peers.getD a dummyPeer) mwi } }

/-- upgradehsinit (enclave.c line 467).  The asserted argument is the slot
of the *peer the caller passed (none for the NULL proxy case); on the
initiator path the C code dereferences *peer, which is never NULL there. -/
def upgradehsinit (C : Crypto) (cons : List Nat) (ifn : Ifn)
    (mwi : MsgWgInit) (asserted : Option Nat) (responder : Bool)
    (oob : List Nat) : Option UhiOk :=
  if responder then upgradehsinitResp C cons ifn mwi asserted oob
  else
    match asserted with
    | some a => upgradehsinitInit C cons ifn mwi a
    | none => none

/-- State-passing view of upgradehsinit: the interface table after the
call.  On failure nothing was written (all persistent writes in the C code
come after the last failure point), on success the selected peer slot holds
the committed peer. -/
def upgradehsinitS (C : Crypto) (cons : List Nat) (ifn : Ifn)
    (mwi : MsgWgInit) (asserted : Option Nat) (responder : Bool)
    (oob : List Nat) : Option UhiOk × Ifn :=
  match upgradehsinit C cons ifn mwi asserted responder oob with
  | none => (none, ifn)
  | some u => (some u, { ifn with peers := ifn.peers.set u.peerIdx u.peer })

/-- createhsinit (enclave.c line 570).  sessid, the ephemeral keypair and
the 12-byte plaintext timestamp are inputs (arc4random, X25519_keypair and
nowtai64n of the C code).  The writes to hs->sessid and hs->epriv happen
before upgradehsinit is called, so the returned Peer reflects them even
when the call fails; mac1 is computed with the peer mac1key and mac2 is
zeroed on success. -/
def createhsinit (C : Crypto) (cons : List Nat) (ifn : Ifn)
    (pIdx sessid : Nat) (epub epriv ts12 : List Nat) :
    Option MsgWgInit × Peer :=
  let p := ifn.peers.getD pIdx dummyPeer
  let p1 : Peer := { p with hs := { p.hs with sessid := sessid, epriv := epriv } }
  let mwi0 : MsgWgInit :=
    { typ := 1, sender := sessid, ephemeral := epub, stat := [],
      timestamp := ts12, mac1 := [], mac2 := [] }
  match upgradehsinit C cons { ifn with peers := ifn.peers.set pIdx p1 }
      mwi0 (some pIdx) false [] with
  | none => (none, p1)
  | some u =>
    (some { u.mwi with
            mac1 := C.mac u.peer.mac1key (initMacData u.mwi)
            mac2 := List.replicate 16 0 }, u.peer)

/-- upgradehsresp (enclave.c line 631).  Returns the new chaining key and
the message (with enc_empty sealed in on the responder path); it never
touches hs->h persistently, and commits hs->c only in its callers.  The
ifnpriv argument is hs->peer->ifn->privkey, used on the initiator path. -/
def upgradehsresp (C : Crypto) (ifnpriv : List Nat) (pr : Peer)
    (mwr : MsgWgResp) (responder : Bool) : Option (List Nat × MsgWgResp) :=
  let tmpc1 := kdf1 C mwr.ephemeral pr.hs.c
  let tmph1 := C.hash (pr.hs.h ++ mwr.ephemeral)
  let k1 := if responder then C.dh pr.hs.epriv pr.hs.epubi
            else C.dh pr.hs.epriv mwr.ephemeral
  if dhfail k1 then none
  else
    let tmpc2 := kdf1 C k1 tmpc1
    let k2 := if responder then C.dh pr.hs.epriv pr.pubkey
              else C.dh ifnpriv mwr.ephemeral
    if dhfail k2 then none
    else
      let tmpc3 := kdf1 C k2 tmpc2
      let ckk := kdf3 C pr.psk tmpc3
      let tmph2 := C.hash (tmph1 ++ ckk.2.1)
      if responder then
        some (ckk.1, { mwr with empty := C.aeadSeal ckk.2.2 tmph2 [] })
      else
        match C.aeadOpen ckk.2.2 tmph2 mwr.empty with
        | none => none
        | some _ => some (ckk.1, mwr)

/-- createhsresp (enclave.c line 697).  hs->sessid, hs->peersessid and
hs->epriv are written before upgradehsresp runs, so they persist even when
the call fails; hs->c is committed only on success.  The fresh sessid and
ephemeral keypair are inputs. -/
def createhsresp (C : Crypto) (ifnpriv : List Nat) (pr : Peer)
    (mwiSender sessid : Nat) (epub epriv : List Nat) :
    Option MsgWgResp × Peer :=
  let pr1 : Peer :=
    { pr with
      hs :=
        { pr.hs with
          sessid := sessid
          peersessid := mwiSender
          epriv := epriv } }
  let mwr0 : MsgWgResp :=
    { typ := 2, sender := sessid, receiver := mwiSender, ephemeral := epub,
      empty := [], mac1 := [], mac2 := [] }
  match upgradehsresp C ifnpriv pr1 mwr0 true with
  | none => (none, pr1)
  | some cm =>
    (some { cm.2 with
            mac1 := C.mac pr.mac1key (respMacData cm.2)
            mac2 := List.replicate 16 0 },
     { pr1 with hs := { pr1.hs with c := cm.1 } })

/-- makemsgsesskeys (enclave.c line 261): kdfn(iov, 2, NULL, hs->c), the
two outputs going to (sendkey, recvkey) for the initiator and to
(recvkey, sendkey) for the responder; a NULL input means HMAC over the
empty input, the [] case of kdf2. -/
def makemsgsesskeys (C : Crypto) (hs : Hs) (responder : Bool) :
    MsgSessKeys :=
  let kk := kdf2 C [] hs.c
  if responder then
    { recvkey := kk.1, sendkey := kk.2, sessid := hs.sessid,
      peersessid := hs.peersessid }
  else
    { sendkey := kk.1, recvkey := kk.2, sessid := hs.sessid,
      peersessid := hs.peersessid }

/-- Outcome of a message handling routine: the process exited, the routine
returned -1, or it returned 0. -/
inductive HOut where
  | exited : HOut
  | failed : HOut
  | ok : HOut
deriving DecidableEq

/-- Tail of handlewginit after the handshake upgrade (enclave.c lines
815-842): makemsgsesskeys cannot fail with non-NULL arguments, then the
MSGSESSKEYS and MSGWGRESP sends, whose wire errors make the routine return
-1.  The sKeys and sResp flags model the success of the two
wire_sendpeeridmsg calls. -/
def handlewginitTail (C : Crypto) (p : Peer) (sKeys sResp : Bool)
    (ifn2 : Ifn) : HOut × Ifn :=
  let _msk := makemsgsesskeys C p.hs true
  if sKeys then
    if sResp then (HOut.ok, ifn2) else (HOut.failed, ifn2)
  else (HOut.failed, ifn2)

/-- handlewginit (enclave.c line 752).  hasAddr models fsn and lsn being
non NULL (the proxy path); mcrOk the success of makemsgconnreq (whose
failure calls exit(1)); sConn, sKeys, sResp the success of the three
wire_sendpeeridmsg calls (whose failures return -1). -/
def handlewginit (C : Crypto) (cons : List Nat) (ifn : Ifn)
    (asserted : Option Nat) (hasAddr mcrOk sConn sKeys sResp : Bool)
    (mwi : MsgWgInit) (oob : List Nat) (rSessid : Nat)
    (rEpub rEpriv : List Nat) : HOut × Ifn :=
  if C.mac ifn.mac1key (initMacData mwi) = mwi.mac1 then
    match upgradehsinit C cons ifn mwi asserted true oob with
    | none => (HOut.failed, ifn)
    | some u =>
      let ifn1 : Ifn := { ifn with peers := ifn.peers.set u.peerIdx u.peer }
      match createhsresp C ifn.privkey u.peer mwi.sender rSessid rEpub
          rEpriv with
      | (none, p1) =>
        (HOut.failed, { ifn1 with peers := ifn1.peers.set u.peerIdx p1 })
      | (some _mwr, p2) =>
        let ifn2 : Ifn := { ifn1 with peers := ifn1.peers.set u.peerIdx p2 }
        if hasAddr then
          if mcrOk then
            if sConn then handlewginitTail C p2 sKeys sResp ifn2
            else (HOut.failed, ifn2)
          else (HOut.exited, ifn2)
        else handlewginitTail C p2 sKeys sResp ifn2
  else (HOut.failed, ifn)

/-- Peer id cross check of handlewgresp (enclave.c line 903): compare the
id of the asserted peer and of the peer found by session id. -/
def respAssertMismatch (ifn : Ifn) : Option Nat → Nat → Bool
  | none, _ => false
  | some a, i =>
    decide ((ifn.peers.getD a dummyPeer).id ≠ (ifn.peers.getD i dummyPeer).id)

/-- Tail of handlewgresp (enclave.c lines 936-955): the MSGSESSKEYS send. -/
def handlewgrespTail (C : Crypto) (p : Peer) (sKeys : Bool) (ifn1 : Ifn) :
    HOut × Ifn :=
  let _msk := makemsgsesskeys C p.hs false
  if sKeys then (HOut.ok, ifn1) else (HOut.failed, ifn1)

/-- handlewgresp (enclave.c line 861): mac1 check, lookup by the receiver
session id, peer id cross check, upgradehsresp as initiator, then
hs->peersessid = mwr->sender and the replies. -/
def handlewgresp (C : Crypto) (ifn : Ifn) (asserted : Option Nat)
    (hasAddr mcrOk sConn sKeys : Bool) (mwr : MsgWgResp) : HOut × Ifn :=
  if C.mac ifn.mac1key (respMacData mwr) = mwr.mac1 then
    match findpeerbysessid ifn.peers mwr.receiver with
    | none => (HOut.failed, ifn)
    | some i =>
      if respAssertMismatch ifn asserted i then (HOut.failed, ifn)
      else
        match upgradehsresp C ifn.privkey (ifn.peers.getD i dummyPeer) mwr
            false with
        | none => (HOut.failed, ifn)
        | some cm =>
          let p1 : Peer :=
            { ifn.peers.getD i dummyPeer with
              hs := { (ifn.peers.getD i dummyPeer).hs with
                      c := cm.1, peersessid := mwr.sender } }
          let ifn1 : Ifn := { ifn with peers := ifn.peers.set i p1 }
          if hasAddr then
            if mcrOk then
              if sConn then handlewgrespTail C p1 sKeys ifn1
              else (HOut.failed, ifn1)
            else (HOut.exited, ifn1)
          else handlewgrespTail C p1 sKeys ifn1
  else (HOut.failed, ifn)

/-- Message subtypes arriving from an interface process. -/
inductive IfnMsgType where
  | msgwginit : IfnMsgType
  | msgwgresp : IfnMsgType
  | msgreqwginit : IfnMsgType
  | other : IfnMsgType
deriving DecidableEq

/-- handleifnmsg (enclave.c line 973): peer lookup by the id asserted by
the interface, then dispatch; fsn and lsn are NULL on this path.  The
sInit flag models the wire_sendpeeridmsg of a created MSGWGINIT. -/
def handleifnmsg (C : Crypto) (cons : List Nat) (ifn : Ifn) (peerid : Nat)
    (mt : IfnMsgType) (mwi : MsgWgInit) (mwr : MsgWgResp) (oob : List Nat)
    (sKeys sResp sInit : Bool) (rSessid : Nat) (rEpub rEpriv ts12 : List Nat) :
    HOut × Ifn :=
  match findifnpeerbyid ifn peerid with
  | none => (HOut.failed, ifn)
  | some _ =>
    match mt with
    | IfnMsgType.msgwginit =>
      handlewginit C cons ifn (some peerid) false true true sKeys sResp mwi
        oob rSessid rEpub rEpriv
    | IfnMsgType.msgwgresp =>
      handlewgresp C ifn (some peerid) false true true sKeys mwr
    | IfnMsgType.msgreqwginit =>
      match createhsinit C cons ifn peerid rSessid rEpub rEpriv ts12 with
      | (none, p1) =>
        (HOut.failed, { ifn with peers := ifn.peers.set peerid p1 })
      | (some _m, p2) =>
        if sInit then
          (HOut.ok, { ifn with peers := ifn.peers.set peerid p2 })
        else (HOut.failed, { ifn with peers := ifn.peers.set peerid p2 })
    | IfnMsgType.other => (HOut.failed, ifn)

/-- Result of the interface id check of handleproxymsg. -/
inductive ProxyDispatch where
  | rejected : ProxyDispatch
  | oobRead : ProxyDispatch
  | dispatched : Nat → ProxyDispatch
deriving DecidableEq

/-- Interface id guard of handleproxymsg (enclave.c lines 1059-1063): the
C code rejects only when ifnid > ifnvsize and then reads ifnv[ifnid]; at
ifnid = ifnvsize the read is one past the end of the table (oobRead). -/
def handleproxymsgGuard (ifnv : List Ifn) (ifnid : Nat) : ProxyDispatch :=
  if ifnid > ifnv.length then ProxyDispatch.rejected
  else
    match ifnv[ifnid]? with
    | some _ => ProxyDispatch.dispatched ifnid
    | none => ProxyDispatch.oobRead

/-- One SPEER configuration record (wiresep speer message). -/
structure SPeerCfg where
  psk : List Nat
  peerkey : List Nat
  mac1key : List Nat
deriving DecidableEq

/-- Peer construction of recvconfig (enclave.c lines 1269-1313) for the
peer at slot m: p->id = m, pubkeyhash = Hash(considhash || peerkey) via
appendhash, dhsecret = dh(ifn->privkey, peerkey) (return value ignored by
the C code), recvts zeroed; the malloc'd hs is uninitialised except for
its peer back-pointer, modelled as dummyHs. -/
def mkPeer (C : Crypto) (considhash ifnpriv : List Nat) (m : Nat)
    (cfg : SPeerCfg) : Peer :=
  { id := m
    pubkey := cfg.peerkey
    pubkeyhash := C.hash (considhash ++ cfg.peerkey)
    mac1key := cfg.mac1key
    dhsecret := C.dh ifnpriv cfg.peerkey
    psk := cfg.psk
    hs := dummyHs
    recvts := List.replicate 12 0 }

def recvconfigPeersAux (C : Crypto) (considhash ifnpriv : List Nat) :
    Nat → List SPeerCfg → List Peer
  | _, [] => []
  | m, cfg :: cfgs =>
    mkPeer C considhash ifnpriv m cfg ::
      recvconfigPeersAux C considhash ifnpriv (m + 1) cfgs

/-- The peer table built by recvconfig for one interface: the peer at
index m is configured from the m-th SPEER message (the C code asserts
smsg.peer.peerid == m and sets p->id = m). -/
def recvconfigPeers (C : Crypto) (considhash ifnpriv : List Nat)
    (cfgs : List SPeerCfg) : List Peer :=
  recvconfigPeersAux C considhash ifnpriv 0 cfgs

/-
Concrete instantiation of the abstract primitives, used to evaluate the
model at explicit inputs.  The toy AEAD is invertible by construction and
the toy DH is symmetric whenever the chosen public keys equal the private
keys; a private key [9] yields the all-zero shared secret, giving a
concrete DH failure.
-/

def sumL (l : List Nat) : Nat :=
  l.foldr (fun a b => a + b) 0

def toyHash (l : List Nat) : List Nat :=
  [sumL l + l.length + 1]

def toyHmac (key inp : List Nat) : List Nat :=
  [3 * sumL key + sumL inp + inp.length + 1]

def toyDh (priv pub : List Nat) : List Nat :=
  if priv = [9] then [0] else [sumL priv + sumL pub + 1]

def toySeal (k h pt : List Nat) : List Nat :=
  k.length :: h.length :: (k ++ h ++ pt)

def toyOpen (k h ct : List Nat) : Option (List Nat) :=
  if ct.take 2 = [k.length, h.length] ∧
      (ct.drop 2).take (k.length + h.length) = k ++ h then
    some ((ct.drop 2).drop (k.length + h.length))
  else none

def toyMac (key data : List Nat) : List Nat :=
  [sumL key + 7 * sumL data + data.length]

def toyCrypto : Crypto :=
  { hash := toyHash, hmac := toyHmac, dh := toyDh, aeadSeal := toySeal,
    aeadOpen := toyOpen, mac := toyMac }

/-
Fixtures: a correctly configured pair of interfaces.  All public keys are
chosen equal to the corresponding private keys so that the symmetric toy
DH realises the X25519 agreement equations.
-/

def fxCons : List Nat := [2]

/-- The initiator interface record of the responder peer. -/
def fxPeerI : Peer :=
  { id := 0, pubkey := [4], pubkeyhash := [11], mac1key := [12],
    dhsecret := [13], psk := [3], hs := dummyHs,
    recvts := List.replicate 12 0 }

def fxIfnI : Ifn :=
  { id := 0, privkey := [6], pubkey := [6], pubkeyhash := [14],
    mac1key := [15], cookiekey := [0], peers := [fxPeerI] }

/-- The responder interface record of the initiator peer. -/
def fxPeerR : Peer :=
  { id := 0, pubkey := [6], pubkeyhash := [16], mac1key := [12],
    dhsecret := [13], psk := [3], hs := dummyHs,
    recvts := List.replicate 12 0 }

def fxIfnR : Ifn :=
  { id := 1, privkey := [4], pubkey := [4], pubkeyhash := [11],
    mac1key := [17], cookiekey := [0], peers := [fxPeerR] }

def fxTs : List Nat := [1, 0, 0, 0, 0, 0, 0, 0, 0, 0, 0, 0]

def fxOob : List Nat := List.replicate 16 0

/-- The MsgInit produced by createhsinit on the initiator fixture. -/
def fxMwi : MsgWgInit :=
  (createhsinit toyCrypto fxCons fxIfnI 0 21 [5] [5] fxTs).1.getD dummyMwi

/-- The initiator peer state after createhsinit on the fixture. -/
def fxPeerIDone : Peer :=
  (createhsinit toyCrypto fxCons fxIfnI 0 21 [5] [5] fxTs).2

/-- fxMwi re-keyed with a mac1 valid for the responder interface, as the
interface mac1key fixtures are not tied by a hash relation here. -/
def fxMwiGood : MsgWgInit :=
  { fxMwi with mac1 := toyCrypto.mac fxIfnR.mac1key (initMacData fxMwi) }

/-- fxMwiGood with every mac1 byte disturbed. -/
def fxMwiFlip : MsgWgInit :=
  { fxMwiGood with mac1 := List.map (fun b => b + 1) fxMwiGood.mac1 }

def fxMwrBase : MsgWgResp :=
  { typ := 2, sender := 60, receiver := 51, ephemeral := [8], empty := [],
    mac1 := [], mac2 := [] }

def fxMwrGood : MsgWgResp :=
  { fxMwrBase with
    mac1 := toyCrypto.mac fxIfnR.mac1key (respMacData fxMwrBase) }

def fxMwrFlip : MsgWgResp :=
  { fxMwrGood with mac1 := List.map (fun b => b + 1) fxMwrGood.mac1 }

/-
Fixtures for the cross-peer claims: one interface with two peers.
-/

def c7PeerA : Peer :=
  { id := 0, pubkey := [21], pubkeyhash := [31], mac1key := [41],
    dhsecret := [51], psk := [3],
    hs := { dummyHs with sessid := 51 }, recvts := List.replicate 12 0 }

def c7PeerB : Peer :=
  { id := 1, pubkey := [22], pubkeyhash := [32], mac1key := [42],
    dhsecret := [52], psk := [3],
    hs := { dummyHs with sessid := 52 }, recvts := List.replicate 12 0 }

def c7Ifn : Ifn :=
  { id := 2, privkey := [4], pubkey := [4], pubkeyhash := [11],
    mac1key := [18], cookiekey := [0], peers := [c7PeerA, c7PeerB] }

def c7Base : MsgWgInit :=
  { typ := 1, sender := 9, ephemeral := [5], stat := [], timestamp := [],
    mac1 := [], mac2 := [] }

/-- enc_static that opens, under the responder chain of c7Ifn, to the
public key of c7PeerB. -/
def c7Stat : List Nat :=
  toyCrypto.aeadSeal (uhiCK2r toyCrypto fxCons c7Ifn c7Base).2
    (uhiH1r toyCrypto c7Ifn c7Base) [22]

def c7Mwi : MsgWgInit :=
  { c7Base with stat := c7Stat }

def c7Mwr : MsgWgResp :=
  { fxMwrBase with
    mac1 := toyCrypto.mac c7Ifn.mac1key (respMacData fxMwrBase) }

/-
Fixtures for the session-keys and config claims.
-/

def fxHsA : Hs :=
  { sessid := 101, peersessid := 202, epriv := [5], epubi := [8],
    c := [30], h := [7] }

def fxHsB : Hs :=
  { sessid := 202, peersessid := 101, epriv := [8], epubi := [5],
    c := [30], h := [7] }

def fxCfgs : List SPeerCfg :=
  [{ psk := [1], peerkey := [2], mac1key := [3] },
   { psk := [4], peerkey := [5], mac1key := [6] }]

/-
Fixtures for the response round trip: two peers whose handshake states
agree after the init exchange.
-/

def c4PeerI : Peer :=
  { id := 0, pubkey := [4], pubkeyhash := [11], mac1key := [12],
    dhsecret := [13], psk := [3],
    hs := { sessid := 21, peersessid := 0, epriv := [5], epubi := [],
            c := [20], h := [19] },
    recvts := List.replicate 12 0 }

def c4PeerR : Peer :=
  { id := 0, pubkey := [6], pubkeyhash := [16], mac1key := [12],
    dhsecret := [13], psk := [3],
    hs := { sessid := 0, peersessid := 0, epriv := [], epubi := [5],
            c := [20], h := [19] },
    recvts := fxTs }

/-- A handlewginit call fails during the consume step: invalid mac1 or a
failing upgradehsinit (AEAD open, DH, unknown peer, cross-peer, replay). -/
def hwinitConsumeFails (C : Crypto) (cons : List Nat) (ifn : Ifn)
    (asserted : Option Nat) (mwi : MsgWgInit) (oob : List Nat) : Prop :=
  C.mac ifn.mac1key (initMacData mwi) ≠ mwi.mac1 ∨
  upgradehsinit C cons ifn mwi asserted true oob = none

/-- A handlewgresp call fails during the consume step: invalid mac1,
unknown receiver session id, peer id cross mismatch, or a failing
upgradehsresp. -/
def hwrespConsumeFails (C : Crypto) (ifn : Ifn) (asserted : Option Nat)
    (mwr : MsgWgResp) : Prop :=
  C.mac ifn.mac1key (respMacData mwr) ≠ mwr.mac1 ∨
  findpeerbysessid ifn.peers mwr.receiver = none ∨
  (∃ i, findpeerbysessid ifn.peers mwr.receiver = some i ∧
    (respAssertMismatch ifn asserted i = true ∨
     upgradehsresp C ifn.privkey (ifn.peers.getD i dummyPeer) mwr false =
       none))

/-
Helper lemmas.
-/

theorem take_all_len {α : Type} : ∀ (l : List α) (n : Nat),
    l.length ≤ n → l.take n = l
  | [], n, _ => by simp
  | a :: as, 0, h => by simp at h
  | a :: as, n + 1, h => by
    simp only [List.take]
    rw [take_all_len as n (by simpa using h)]

theorem take_len_append {α : Type} : ∀ (l l2 : List α) (n : Nat),
    l.length = n → (l ++ l2).take n = l
  | [], l2, 0, _ => by simp
  | [], l2, n + 1, h => by simp at h
  | a :: as, l2, 0, h => by simp at h
  | a :: as, l2, n + 1, h => by
    show a :: (as ++ l2).take n = a :: as
    rw [take_len_append as l2 n (by simpa using h)]

theorem drop_len_append {α : Type} : ∀ (l l2 : List α) (n : Nat),
    l.length = n → (l ++ l2).drop n = l2
  | [], l2, 0, _ => by simp
  | [], l2, n + 1, h => by simp at h
  | a :: as, l2, 0, h => by simp at h
  | a :: as, l2, n + 1, h => by
    show (as ++ l2).drop n = l2
    exact drop_len_append as l2 n (by simpa using h)

theorem getD_set_self {α : Type} : ∀ (l : List α) (i : Nat) (a d : α),
    i < l.length → (l.set i a).getD i d = a
  | [], i, a, d, h => absurd h (by simp)
  | x :: xs, 0, a, d, _ => rfl
  | x :: xs, i + 1, a, d, h =>
    getD_set_self xs i a d (by simpa using h)

theorem memcmp_append : ∀ (xs ys as bs : List Nat), xs.length = ys.length →
    memcmpBytes (xs ++ as) (ys ++ bs) =
      ordThen (memcmpBytes xs ys) (memcmpBytes as bs) := by
  intro xs
  induction xs with
  | nil =>
    intro ys as bs h
    cases ys with
    | nil => simp [memcmpBytes, ordThen]
    | cons y ys2 => simp at h
  | cons x xs ih =>
    intro ys as bs h
    cases ys with
    | nil => simp at h
    | cons y ys2 =>
      simp only [List.cons_append, memcmpBytes]
      by_cases h1 : x < y
      · simp [h1, ordThen]
      · by_cases h2 : y < x
        · simp [h1, h2, ordThen]
        · simp only [if_neg h1, if_neg h2]
          exact ih ys2 as bs (by simpa using h)

theorem memcmp_rep_zero : ∀ (n : Nat) (bs : List Nat), n ≤ bs.length →
    memcmpBytes (List.replicate n 0) bs ≠ Ordering.gt := by
  intro n
  induction n with
  | zero =>
    intro bs _
    cases bs with
    | nil => simp [memcmpBytes]
    | cons b bs2 => simp [memcmpBytes]
  | succ n ih =>
    intro bs h
    cases bs with
    | nil => simp at h
    | cons b bs2 =>
      simp only [List.replicate, memcmpBytes]
      by_cases h1 : 0 < b
      · simp [h1]
      · simp only [if_neg h1, Nat.not_lt_zero, if_neg (by simp : ¬ b < 0)]
        exact ih bs2 (by simpa using h)

theorem ordIsGT_iff (o : Ordering) : ordIsGT o = true ↔ o = Ordering.gt := by
  cases o <;> simp [ordIsGT]

theorem replaycmp_gt_iff (ts rv oob : List Nat) (h1 : ts.length = 12)
    (h2 : rv.length = 12) (h3 : oob.length = 16) :
    ordIsGT (replaycmp ts rv oob) = true ↔
      memcmpBytes ts rv = Ordering.gt := by
  unfold replaycmp
  rw [take_all_len (ts ++ List.replicate 16 0) 28 (by simp [h1]),
    take_all_len (rv ++ oob) 28 (by simp [h2, h3]),
    memcmp_append ts rv _ _ (by rw [h1, h2])]
  rcases hc : memcmpBytes ts rv with _ | _ | _
  · simp [ordThen, ordIsGT]
  · constructor
    · intro hgt
      exfalso
      have hne := memcmp_rep_zero 16 oob (by rw [h3])
      simp only [ordThen] at hgt
      rw [ordIsGT_iff] at hgt
      exact hne hgt
    · intro hgt
      simp at hgt
  · simp [ordThen, ordIsGT]

theorem toy_aead_rt (k h pt : List Nat) :
    toyCrypto.aeadOpen k h (toyCrypto.aeadSeal k h pt) = some pt := by
  show toyOpen k h (toySeal k h pt) = some pt
  unfold toySeal toyOpen
  have e1 : (k.length :: h.length :: (k ++ h ++ pt)).take 2 =
      [k.length, h.length] := rfl
  have e2 : (k.length :: h.length :: (k ++ h ++ pt)).drop 2 =
      k ++ h ++ pt := rfl
  rw [e1, e2]
  rw [take_len_append (k ++ h) pt (k.length + h.length) (by simp)]
  rw [drop_len_append (k ++ h) pt (k.length + h.length) (by simp)]
  simp

/-
Claim theorems.
-/

/-- C1: for every responder-side upgradehsinit whose mac and AEAD opens
succeed, the call accepts exactly when the decrypted 12-byte timestamp is
strictly byte-lexicographically greater than peer recvts; on accept recvts
becomes that timestamp (hence strictly greater than before), and on a
timestamp less than or equal to recvts the call rejects, committing
nothing.  The oob parameter ranges over the unknowable 16 bytes that the
28-byte memcmp reads past the end of the 12-byte recvts field. -/
theorem uwg_c1 (C : Crypto) (cons : List Nat) (ifn : Ifn) (mwi : MsgWgInit)
    (asserted : Option Nat) (oob : List Nat) (pIdx : Nat)
    (statpt ts : List Nat)
    (hdh : dhfail (uhiK1r C ifn mwi) = false)
    (hstat : uhiStatPt C cons ifn mwi = some statpt)
    (hfind : findpeerbypubkey ifn.peers statpt = some pIdx)
    (hass : assertedMismatch asserted pIdx = false)
    (hts : uhiTs C cons ifn mwi (ifn.peers.getD pIdx dummyPeer) = some ts)
    (hlt : ts.length = 12)
    (hlr : (ifn.peers.getD pIdx dummyPeer).recvts.length = 12)
    (hlo : oob.length = 16) :
    ((∃ u, upgradehsinit C cons ifn mwi asserted true oob = some u) ↔
        memcmpBytes ts (ifn.peers.getD pIdx dummyPeer).recvts =
          Ordering.gt) ∧
    (∀ u, upgradehsinit C cons ifn mwi asserted true oob = some u →
        u.peer.recvts = ts ∧
        memcmpBytes u.peer.recvts (ifn.peers.getD pIdx dummyPeer).recvts =
          Ordering.gt) ∧
    (memcmpBytes ts (ifn.peers.getD pIdx dummyPeer).recvts ≠ Ordering.gt →
        upgradehsinit C cons ifn mwi asserted true oob = none) := by
  have hiff := replaycmp_gt_iff ts (ifn.peers.getD pIdx dummyPeer).recvts
    oob hlt hlr hlo
  by_cases hgt : memcmpBytes ts (ifn.peers.getD pIdx dummyPeer).recvts =
      Ordering.gt
  · have hb : ordIsGT (replaycmp ts (ifn.peers.getD pIdx dummyPeer).recvts
        oob) = true := hiff.mpr hgt
    have hsome : upgradehsinit C cons ifn mwi asserted true oob =
        some { peerIdx := pIdx
               peer :=
                 { ifn.peers.getD pIdx dummyPeer with
                   recvts := List.take 12 (ts ++ List.replicate 16 0)
                   hs :=
                     { (ifn.peers.getD pIdx dummyPeer).hs with
                       epubi := mwi.ephemeral
                       c := (uhiCK3r C cons ifn mwi
                         (ifn.peers.getD pIdx dummyPeer)).1
                       h := uhiH3r C cons ifn mwi } }
               mwi := mwi } := by
      simp [upgradehsinit, upgradehsinitResp, hdh, hstat, hfind, hass, hts,
        hb, -List.getD_eq_getElem?_getD]
    have hrts : List.take 12 (ts ++ List.replicate 16 0) = ts :=
      take_len_append ts (List.replicate 16 0) 12 hlt
    refine ⟨⟨fun _ => hgt, fun _ => ⟨_, hsome⟩⟩, ?_, fun hne => absurd hgt hne⟩
    intro u hu
    rw [hsome] at hu
    obtain rfl := (Option.some.injEq _ _).mp hu
    constructor
    · exact hrts
    · rw [hrts]
      exact hgt
  · have hb : ordIsGT (replaycmp ts (ifn.peers.getD pIdx dummyPeer).recvts
        oob) = false := by
      cases hb2 : ordIsGT (replaycmp ts
          (ifn.peers.getD pIdx dummyPeer).recvts oob) with
      | true => exact absurd (hiff.mp hb2) hgt
      | false => rfl
    have hnone : upgradehsinit C cons ifn mwi asserted true oob = none := by
      simp [upgradehsinit, upgradehsinitResp, hdh, hstat, hfind, hass, hts,
        hb, -List.getD_eq_getElem?_getD]
    refine ⟨⟨?_, fun h => absurd h hgt⟩, ?_, fun _ => hnone⟩
    · rintro ⟨u, hu⟩
      rw [hnone] at hu
      exact absurd hu (by simp)
    · intro u hu
      rw [hnone] at hu
      exact absurd hu (by simp)

/-- C1 witness: the fixture MsgInit against the responder fixture, with
every hypothesis discharged at concrete values. -/
theorem uwg_c1_witness :
    uhiTs toyCrypto fxCons fxIfnR fxMwiGood (fxIfnR.peers.getD 0 dummyPeer) =
      some fxTs ∧
    ((∃ u, upgradehsinit toyCrypto fxCons fxIfnR fxMwiGood none true fxOob =
        some u) ↔
      memcmpBytes fxTs (fxIfnR.peers.getD 0 dummyPeer).recvts =
        Ordering.gt) :=
  ⟨by decide,
   (uwg_c1 toyCrypto fxCons fxIfnR fxMwiGood none fxOob 0 [6] fxTs
      (by decide) (by decide) (by decide) (by decide) (by decide)
      (by decide) (by decide) (by decide)).1⟩

/-- C5: makemsgsesskeys derives the pair from KDF_2 over the empty input
keyed by the chaining key, assigning (sendkey, recvkey) in that order for
the initiator and in the swapped order for the responder; with equal
chaining keys the responder pair is the element-wise swap of the initiator
pair. -/
theorem uwg_c5 (C : Crypto) (hsI hsR : Hs) (hc : hsI.c = hsR.c) :
    (makemsgsesskeys C hsI false).sendkey = (kdf2 C [] hsI.c).1 ∧
    (makemsgsesskeys C hsI false).recvkey = (kdf2 C [] hsI.c).2 ∧
    (makemsgsesskeys C hsR true).recvkey = (kdf2 C [] hsR.c).1 ∧
    (makemsgsesskeys C hsR true).sendkey = (kdf2 C [] hsR.c).2 ∧
    (makemsgsesskeys C hsR true).sendkey =
      (makemsgsesskeys C hsI false).recvkey ∧
    (makemsgsesskeys C hsR true).recvkey =
      (makemsgsesskeys C hsI false).sendkey := by
  simp [makemsgsesskeys, hc]

/-- C5 witness at two concrete handshake states with equal chaining keys. -/
theorem uwg_c5_witness :
    fxHsA.c = fxHsB.c ∧
    ((makemsgsesskeys toyCrypto fxHsA false).sendkey =
        (kdf2 toyCrypto [] fxHsA.c).1 ∧
      (makemsgsesskeys toyCrypto fxHsA false).recvkey =
        (kdf2 toyCrypto [] fxHsA.c).2 ∧
      (makemsgsesskeys toyCrypto fxHsB true).recvkey =
        (kdf2 toyCrypto [] fxHsB.c).1 ∧
      (makemsgsesskeys toyCrypto fxHsB true).sendkey =
        (kdf2 toyCrypto [] fxHsB.c).2 ∧
      (makemsgsesskeys toyCrypto fxHsB true).sendkey =
        (makemsgsesskeys toyCrypto fxHsA false).recvkey ∧
      (makemsgsesskeys toyCrypto fxHsB true).recvkey =
        (makemsgsesskeys toyCrypto fxHsA false).sendkey) :=
  ⟨by decide, uwg_c5 toyCrypto fxHsA fxHsB (by decide)⟩

/-- C6: a MsgInit or MsgResp whose mac1 is not the keyed mac of the
message up to the mac1 field under the interface mac1 key is rejected by
handlewginit respectively handlewgresp with return -1, before any
handshake computation and without mutating any peer. -/
theorem uwg_c6 (C : Crypto) (cons : List Nat) (ifn ifn2 : Ifn)
    (a a2 : Option Nat) (hA mO sC sK sR hA2 mO2 sC2 sK2 : Bool)
    (mwi : MsgWgInit) (mwr : MsgWgResp) (oob : List Nat) (rS : Nat)
    (rE rP : List Nat)
    (h1 : C.mac ifn.mac1key (initMacData mwi) ≠ mwi.mac1)
    (h2 : C.mac ifn2.mac1key (respMacData mwr) ≠ mwr.mac1) :
    handlewginit C cons ifn a hA mO sC sK sR mwi oob rS rE rP =
      (HOut.failed, ifn) ∧
    handlewgresp C ifn2 a2 hA2 mO2 sC2 sK2 mwr = (HOut.failed, ifn2) := by
  constructor
  · simp only [handlewginit]
    rw [if_neg h1]
  · simp only [handlewgresp]
    rw [if_neg h2]

/-- C6 witness: the fixture messages with every mac1 byte disturbed are
rejected without any state change. -/
theorem uwg_c6_witness :
    toyCrypto.mac fxIfnR.mac1key (initMacData fxMwiFlip) ≠ fxMwiFlip.mac1 ∧
    handlewginit toyCrypto fxCons fxIfnR none false true true true true
      fxMwiFlip fxOob 33 [8] [8] = (HOut.failed, fxIfnR) ∧
    handlewgresp toyCrypto fxIfnR none false true true true fxMwrFlip =
      (HOut.failed, fxIfnR) :=
  ⟨by decide,
   (uwg_c6 toyCrypto fxCons fxIfnR fxIfnR none none false true true true
      true false true true true fxMwiFlip fxMwrFlip fxOob 33 [8] [8]
      (by decide) (by decide)).1,
   (uwg_c6 toyCrypto fxCons fxIfnR fxIfnR none none false true true true
      true false true true true fxMwiFlip fxMwrFlip fxOob 33 [8] [8]
      (by decide) (by decide)).2⟩

/-- C8: the claim asks handleproxymsg to reject every ifnid with
ifnid >= ifnvsize without reading the interface table; the code guards
with ifnid > ifnvsize, so at ifnid = ifnvsize (here 1, one interface) the
guard passes and the table read is one past the end, while ifnid above the
size is rejected and an in-range id dispatches. -/
theorem uwg_c8_bug :
    handleproxymsgGuard [fxIfnR] 1 = ProxyDispatch.oobRead ∧
    handleproxymsgGuard [fxIfnR] 2 = ProxyDispatch.rejected ∧
    handleproxymsgGuard [fxIfnR] 0 = ProxyDispatch.dispatched 0 :=
  ⟨by decide, by decide, by decide⟩

/-- C7: part one, a MsgInit asserted for peer slot a whose enc_static
decrypts and resolves to a different peer slot p2 is rejected by the
responder upgradehsinit; part two, a MsgResp asserted for a peer whose id
differs from the id of the peer owning the receiver session id is rejected
by handlewgresp with no state change, even though it authenticates. -/
theorem uwg_c7 (C : Crypto) (cons : List Nat) (ifn ifn2 : Ifn)
    (mwi : MsgWgInit) (mwr : MsgWgResp) (oob : List Nat) (a p2 a2 i2 : Nat)
    (statpt : List Nat) (hA mO sC sK : Bool)
    (hstat : uhiStatPt C cons ifn mwi = some statpt)
    (hfind : findpeerbypubkey ifn.peers statpt = some p2)
    (hne : a ≠ p2)
    (hmac : C.mac ifn2.mac1key (respMacData mwr) = mwr.mac1)
    (hfind2 : findpeerbysessid ifn2.peers mwr.receiver = some i2)
    (hid : (ifn2.peers.getD a2 dummyPeer).id ≠
      (ifn2.peers.getD i2 dummyPeer).id) :
    upgradehsinit C cons ifn mwi (some a) true oob = none ∧
    handlewgresp C ifn2 (some a2) hA mO sC sK mwr = (HOut.failed, ifn2) := by
  constructor
  · by_cases hdh : dhfail (uhiK1r C ifn mwi) = true
    · simp [upgradehsinit, upgradehsinitResp, hdh]
    · rw [Bool.not_eq_true] at hdh
      have hmm : assertedMismatch (some a) p2 = true := by
        show decide (a ≠ p2) = true
        exact decide_eq_true hne
      simp [upgradehsinit, upgradehsinitResp, hdh, hstat, hfind, hmm]
  · have hmm2 : respAssertMismatch ifn2 (some a2) i2 = true := by
      show decide ((ifn2.peers.getD a2 dummyPeer).id ≠
        (ifn2.peers.getD i2 dummyPeer).id) = true
      exact decide_eq_true hid
    simp [handlewgresp, hmac, hfind2, hmm2]

/-- C7 witness: a two-peer interface; a MsgInit asserted for slot 0 that
decrypts to the slot 1 public key is rejected, and a MsgResp asserted for
peer 1 whose receiver session id belongs to peer 0 is rejected. -/
theorem uwg_c7_witness :
    findpeerbypubkey c7Ifn.peers [22] = some 1 ∧
    upgradehsinit toyCrypto fxCons c7Ifn c7Mwi (some 0) true fxOob = none ∧
    handlewgresp toyCrypto c7Ifn (some 1) false true true true c7Mwr =
      (HOut.failed, c7Ifn) :=
  ⟨by decide,
   (uwg_c7 toyCrypto fxCons c7Ifn c7Ifn c7Mwi c7Mwr fxOob 0 1 1 0 [22]
      false true true true (by decide) (by decide) (by decide) (by decide)
      (by decide) (by decide)).1,
   (uwg_c7 toyCrypto fxCons c7Ifn c7Ifn c7Mwi c7Mwr fxOob 0 1 1 0 [22]
      false true true true (by decide) (by decide) (by decide) (by decide)
      (by decide) (by decide)).2⟩

theorem recvconfig_id_aux (C : Crypto) (ch ip : List Nat) :
    ∀ (cfgs : List SPeerCfg) (m i : Nat), i < cfgs.length →
      ((recvconfigPeersAux C ch ip m cfgs).getD i dummyPeer).id = m + i := by
  intro cfgs
  induction cfgs with
  | nil =>
    intro m i hi
    simp at hi
  | cons cfg cfgs ih =>
    intro m i hi
    cases i with
    | zero => simp [recvconfigPeersAux, mkPeer]
    | succ j =>
      have hj := ih (m + 1) j (by simpa using hi)
      show ((recvconfigPeersAux C ch ip (m + 1) cfgs).getD j dummyPeer).id =
        m + (j + 1)
      rw [hj]
      omega

/-- C10: a peer id at or above the interface peer count is rejected by the
lookup and by handleifnmsg before any handshake processing; an in-range
peer id resolves to the peer stored at exactly that index; and the peer
table built by recvconfig gives the peer at index i the id i. -/
theorem uwg_c10 (C : Crypto) (cons : List Nat) (ifn : Ifn) (peerid : Nat)
    (mt : IfnMsgType) (mwi : MsgWgInit) (mwr : MsgWgResp) (oob : List Nat)
    (sK sR sI : Bool) (rS : Nat) (rE rP ts12 : List Nat)
    (ch ip : List Nat) (cfgs : List SPeerCfg) :
    (ifn.peers.length ≤ peerid →
        findifnpeerbyid ifn peerid = none ∧
        handleifnmsg C cons ifn peerid mt mwi mwr oob sK sR sI rS rE rP
          ts12 = (HOut.failed, ifn)) ∧
    (peerid < ifn.peers.length →
        findifnpeerbyid ifn peerid =
          some (ifn.peers.getD peerid dummyPeer)) ∧
    (∀ i, i < cfgs.length →
        ((recvconfigPeers C ch ip cfgs).getD i dummyPeer).id = i) := by
  refine ⟨?_, ?_, ?_⟩
  · intro h
    have hf : findifnpeerbyid ifn peerid = none := by
      unfold findifnpeerbyid
      rw [if_pos h]
    exact ⟨hf, by simp [handleifnmsg, hf]⟩
  · intro h
    unfold findifnpeerbyid
    rw [if_neg (by omega)]
  · intro i hi
    have := recvconfig_id_aux C ch ip cfgs 0 i hi
    simpa [recvconfigPeers] using this

/-- C10 witness: an out-of-range peer id is rejected, an in-range one
returns the stored peer, and the configured table has dense ids. -/
theorem uwg_c10_witness :
    findifnpeerbyid fxIfnR 5 = none ∧
    findifnpeerbyid fxIfnR 0 = some fxPeerR ∧
    ((recvconfigPeers toyCrypto [1] [2] fxCfgs).getD 1 dummyPeer).id = 1 :=
  ⟨((uwg_c10 toyCrypto fxCons fxIfnR 5 IfnMsgType.other dummyMwi dummyMwr
      [] true true true 0 [] [] [] [1] [2] fxCfgs).1 (by decide)).1,
   (uwg_c10 toyCrypto fxCons fxIfnR 0 IfnMsgType.other dummyMwi dummyMwr
      [] true true true 0 [] [] [] [1] [2] fxCfgs).2.1 (by decide),
   (uwg_c10 toyCrypto fxCons fxIfnR 0 IfnMsgType.other dummyMwi dummyMwr
      [] true true true 0 [] [] [] [1] [2] fxCfgs).2.2 1 (by decide)⟩

/-- C2 counterexample: a handlewginit call that fails (returns -1) because
the DH inside createhsresp yields the all-zero secret, after the embedded
responder upgradehsinit already committed; the peer chaining key and recvts
differ before and after the failing call, refuting the claim for
handlewginit. -/
theorem uwg_c2_cex :
    (handlewginit toyCrypto fxCons fxIfnR none false true true true true
        fxMwiGood fxOob 33 [9] [9]).1 = HOut.failed ∧
    ((handlewginit toyCrypto fxCons fxIfnR none false true true true true
        fxMwiGood fxOob 33 [9] [9]).2.peers.getD 0 dummyPeer).hs.c ≠
      (fxIfnR.peers.getD 0 dummyPeer).hs.c ∧
    ((handlewginit toyCrypto fxCons fxIfnR none false true true true true
        fxMwiGood fxOob 33 [9] [9]).2.peers.getD 0 dummyPeer).recvts ≠
      (fxIfnR.peers.getD 0 dummyPeer).recvts :=
  ⟨by decide, by decide, by decide⟩

/-- C2 amended: upgradehsinit commits nothing on any failure;
createhsresp leaves hs.c, hs.h and recvts untouched when its upgrade
fails; and handlewginit and handlewgresp leave the interface state
untouched whenever the failure happens at the mac1 check or inside the
consume step (MAC1 mismatch, AEAD open failure, zero DH, unknown peer,
cross-peer mismatch, replay).  Failures after the consume step committed
(response creation, reply transmission) keep the committed state. -/
theorem uwg_c2_amended (C : Crypto) (cons : List Nat) (ifn ifnB ifnC : Ifn)
    (mwi mwiB : MsgWgInit) (mwr : MsgWgResp) (aA aB aC : Option Nat)
    (respA : Bool) (oob oobB : List Nat) (xp : List Nat) (pR : Peer)
    (snd rs : Nat) (re rp : List Nat) (hA mO sC sK sR : Bool)
    (rS : Nat) (rE rP : List Nat) (hA2 mO2 sC2 sK2 : Bool) :
    ((upgradehsinitS C cons ifn mwi aA respA oob).1 = none →
        (upgradehsinitS C cons ifn mwi aA respA oob).2 = ifn) ∧
    (∀ p2, createhsresp C xp pR snd rs re rp = (none, p2) →
        p2.hs.c = pR.hs.c ∧ p2.hs.h = pR.hs.h ∧ p2.recvts = pR.recvts) ∧
    (hwinitConsumeFails C cons ifnB aB mwiB oobB →
        handlewginit C cons ifnB aB hA mO sC sK sR mwiB oobB rS rE rP =
          (HOut.failed, ifnB)) ∧
    (hwrespConsumeFails C ifnC aC mwr →
        handlewgresp C ifnC aC hA2 mO2 sC2 sK2 mwr =
          (HOut.failed, ifnC)) := by
  refine ⟨?_, ?_, ?_, ?_⟩
  · intro h
    cases hu : upgradehsinit C cons ifn mwi aA respA oob with
    | none => simp [upgradehsinitS, hu]
    | some u => simp [upgradehsinitS, hu] at h
  · intro p2 h
    simp only [createhsresp] at h
    split at h
    · obtain ⟨h1, h2⟩ := Prod.mk.injEq _ _ _ _ ▸ h
      rw [← h2]
      exact ⟨rfl, rfl, rfl⟩
    · obtain ⟨h1, h2⟩ := Prod.mk.injEq _ _ _ _ ▸ h
      exact absurd h1 (by simp)
  · intro hcf
    rcases hcf with hm | hn
    · simp only [handlewginit]
      rw [if_neg hm]
    · by_cases hm2 : C.mac ifnB.mac1key (initMacData mwiB) = mwiB.mac1
      · simp [handlewginit, hm2, hn]
      · simp only [handlewginit]
        rw [if_neg hm2]
  · intro hcf
    by_cases hm2 : C.mac ifnC.mac1key (respMacData mwr) = mwr.mac1
    · rcases hcf with hm | hn | ⟨i, hfi, hrest⟩
      · exact absurd hm2 hm
      · simp [handlewgresp, hm2, hn]
      · rcases hrest with hmis | hup
        · simp [handlewgresp, hm2, hfi, hmis]
        · by_cases hmm : respAssertMismatch ifnC aC i = true
          · simp [handlewgresp, hm2, hfi, hmm]
          · rw [Bool.not_eq_true] at hmm
            simp [handlewgresp, hm2, hfi, hmm, hup,
              -List.getD_eq_getElem?_getD]
    · simp only [handlewgresp]
      rw [if_neg hm2]

/-- C2 witness: a handlewginit call on the proxy path whose mac1 check
fails leaves the interface untouched. -/
theorem uwg_c2_witness :
    hwinitConsumeFails toyCrypto fxCons fxIfnR none fxMwiFlip fxOob ∧
    handlewginit toyCrypto fxCons fxIfnR none true true true true true
      fxMwiFlip fxOob 44 [8] [8] = (HOut.failed, fxIfnR) :=
  ⟨Or.inl (by decide),
   (uwg_c2_amended toyCrypto fxCons fxIfnR fxIfnR fxIfnR dummyMwi fxMwiFlip
      dummyMwr none none none true [] fxOob [] dummyPeer 0 0 [] [] true
      true true true true 44 [8] [8] false true true true).2.2.1
     (Or.inl (by decide))⟩

theorem hwi_tail_ne_exited (C : Crypto) (p : Peer) (sk sr : Bool)
    (i2 : Ifn) : (handlewginitTail C p sk sr i2).1 ≠ HOut.exited := by
  simp only [handlewginitTail]
  split
  · split
    · exact fun h => nomatch h
    · exact fun h => nomatch h
  · exact fun h => nomatch h

theorem hwr_tail_ne_exited (C : Crypto) (p : Peer) (sk : Bool) (i1 : Ifn) :
    (handlewgrespTail C p sk i1).1 ≠ HOut.exited := by
  simp only [handlewgrespTail]
  split
  · exact fun h => nomatch h
  · exact fun h => nomatch h

/-- C9 counterexample: a handlewginit call whose wire send of the expected
MSGSESSKEYS reply fails returns -1 (HOut.failed); the process does not
exit, refuting the claim that a sibling I/O error during the send of an
expected reply is fatal. -/
theorem uwg_c9_cex :
    (handlewginit toyCrypto fxCons fxIfnR none false true true false true
        fxMwiGood fxOob 33 [8] [8]).1 = HOut.failed ∧
    (handlewginit toyCrypto fxCons fxIfnR none false true true false true
        fxMwiGood fxOob 33 [8] [8]).1 ≠ HOut.exited :=
  ⟨by decide, by decide⟩

/-- C9 amended: a failing wire_sendpeeridmsg of any expected reply
(MSGCONNREQ, MSGSESSKEYS, MSGWGRESP in handlewginit and handlewgresp, and
MSGWGINIT in handleifnmsg after MSGREQWGINIT) makes the handling routine
return -1; none of the handlers exits on such send errors (handlewginit
and handlewgresp can exit only when makemsgconnreq fails, and handleifnmsg
never exits).  The exits are reserved for failures while building the
connect request (or, per the dead branch, the session keys message). -/
theorem uwg_c9_amended (C : Crypto) (cons : List Nat) (ifn ifn2 ifn3 : Ifn)
    (a a2 : Option Nat) (hA sC sK sR hA2 sC2 sK2 : Bool)
    (mwi : MsgWgInit) (mwr : MsgWgResp) (oob : List Nat) (rS : Nat)
    (rE rP : List Nat) (u : UhiOk) (mwrX : MsgWgResp) (i2 : Nat)
    (r2 : List Nat × MsgWgResp) (peerid : Nat) (mt3 : IfnMsgType)
    (mwi3 : MsgWgInit) (mwr3 : MsgWgResp) (oob3 : List Nat)
    (sK3 sR3 sI3 : Bool) (rS3 : Nat) (rE3 rP3 ts3 : List Nat)
    (pX : Peer) (m3 : MsgWgInit) :
    ((handlewginit C cons ifn a hA true sC sK sR mwi oob rS rE rP).1 ≠
        HOut.exited) ∧
    ((handlewgresp C ifn2 a2 hA2 true sC2 sK2 mwr).1 ≠ HOut.exited) ∧
    (C.mac ifn.mac1key (initMacData mwi) = mwi.mac1 →
      upgradehsinit C cons ifn mwi a true oob = some u →
      (createhsresp C ifn.privkey u.peer mwi.sender rS rE rP).1 =
        some mwrX →
      ((handlewginit C cons ifn a false true sC false sR mwi oob rS rE
          rP).1 = HOut.failed ∧
        (handlewginit C cons ifn a false true sC true false mwi oob rS rE
          rP).1 = HOut.failed ∧
        (handlewginit C cons ifn a true true false sK sR mwi oob rS rE
          rP).1 = HOut.failed)) ∧
    (C.mac ifn2.mac1key (respMacData mwr) = mwr.mac1 →
      findpeerbysessid ifn2.peers mwr.receiver = some i2 →
      respAssertMismatch ifn2 a2 i2 = false →
      upgradehsresp C ifn2.privkey (ifn2.peers.getD i2 dummyPeer) mwr
        false = some r2 →
      ((handlewgresp C ifn2 a2 true true false sK2 mwr).1 = HOut.failed ∧
        (handlewgresp C ifn2 a2 false true sC2 false mwr).1 =
          HOut.failed)) ∧
    ((handleifnmsg C cons ifn3 peerid mt3 mwi3 mwr3 oob3 sK3 sR3 sI3 rS3
        rE3 rP3 ts3).1 ≠ HOut.exited) ∧
    (findifnpeerbyid ifn3 peerid = some pX →
      (createhsinit C cons ifn3 peerid rS3 rE3 rP3 ts3).1 = some m3 →
      (handleifnmsg C cons ifn3 peerid IfnMsgType.msgreqwginit mwi3 mwr3
        oob3 sK3 sR3 false rS3 rE3 rP3 ts3).1 = HOut.failed) := by
  have hwiNE : ∀ (ifnA : Ifn) (aA : Option Nat) (hAx sCx sKx sRx : Bool)
      (mwiA : MsgWgInit) (oobA : List Nat) (rSx : Nat) (rEx rPx : List Nat),
      (handlewginit C cons ifnA aA hAx true sCx sKx sRx mwiA oobA rSx rEx
        rPx).1 ≠ HOut.exited := by
    intro ifnA aA hAx sCx sKx sRx mwiA oobA rSx rEx rPx
    by_cases hm : C.mac ifnA.mac1key (initMacData mwiA) = mwiA.mac1
    · cases hu : upgradehsinit C cons ifnA mwiA aA true oobA with
      | none => simp [handlewginit, hm, hu]
      | some u2 =>
        rcases hc : createhsresp C ifnA.privkey u2.peer mwiA.sender rSx rEx
          rPx with ⟨o, p2⟩
        cases o with
        | none => simp [handlewginit, hm, hu, hc]
        | some mX =>
          cases hAx with
          | false =>
            simp [handlewginit, hm, hu, hc, hwi_tail_ne_exited,
              -List.getD_eq_getElem?_getD]
          | true =>
            cases sCx with
            | false =>
              simp [handlewginit, hm, hu, hc,
                -List.getD_eq_getElem?_getD]
            | true =>
              simp [handlewginit, hm, hu, hc, hwi_tail_ne_exited,
                -List.getD_eq_getElem?_getD]
    · simp [handlewginit, hm]
  have hwrNE : ∀ (ifnA : Ifn) (aA : Option Nat) (hAx sCx sKx : Bool)
      (mwrA : MsgWgResp),
      (handlewgresp C ifnA aA hAx true sCx sKx mwrA).1 ≠ HOut.exited := by
    intro ifnA aA hAx sCx sKx mwrA
    by_cases hm : C.mac ifnA.mac1key (respMacData mwrA) = mwrA.mac1
    · cases hf : findpeerbysessid ifnA.peers mwrA.receiver with
      | none => simp [handlewgresp, hm, hf]
      | some i3 =>
        cases hmm : respAssertMismatch ifnA aA i3 with
        | true => simp [handlewgresp, hm, hf, hmm]
        | false =>
          cases hu : upgradehsresp C ifnA.privkey
              (ifnA.peers.getD i3 dummyPeer) mwrA false with
          | none =>
            simp [handlewgresp, hm, hf, hmm, hu,
              -List.getD_eq_getElem?_getD]
          | some cm =>
            cases hAx with
            | false =>
              simp [handlewgresp, hm, hf, hmm, hu, hwr_tail_ne_exited,
                -List.getD_eq_getElem?_getD]
            | true =>
              cases sCx with
              | false =>
                simp [handlewgresp, hm, hf, hmm, hu,
                  -List.getD_eq_getElem?_getD]
              | true =>
                simp [handlewgresp, hm, hf, hmm, hu, hwr_tail_ne_exited,
                  -List.getD_eq_getElem?_getD]
    · simp [handlewgresp, hm]
  refine ⟨hwiNE ifn a hA sC sK sR mwi oob rS rE rP,
    hwrNE ifn2 a2 hA2 sC2 sK2 mwr, ?_, ?_, ?_, ?_⟩
  · intro hm hu hc
    rcases hcp : createhsresp C ifn.privkey u.peer mwi.sender rS rE rP
      with ⟨o, p2⟩
    rw [hcp] at hc
    simp only at hc
    subst hc
    refine ⟨?_, ?_, ?_⟩
    · simp [handlewginit, hm, hu, hcp, handlewginitTail]
    · simp [handlewginit, hm, hu, hcp, handlewginitTail]
    · simp [handlewginit, hm, hu, hcp]
  · intro hm hfi hmis hup
    constructor
    · simp [handlewgresp, hm, hfi, hmis, hup, -List.getD_eq_getElem?_getD]
    · simp [handlewgresp, hm, hfi, hmis, hup, handlewgrespTail,
        -List.getD_eq_getElem?_getD]
  · cases hfp : findifnpeerbyid ifn3 peerid with
    | none => simp [handleifnmsg, hfp]
    | some p =>
      cases mt3 with
      | msgwginit =>
        simp only [handleifnmsg, hfp]
        exact hwiNE ifn3 (some peerid) false true sK3 sR3 mwi3 oob3 rS3
          rE3 rP3
      | msgwgresp =>
        simp only [handleifnmsg, hfp]
        exact hwrNE ifn3 (some peerid) false true sK3 mwr3
      | msgreqwginit =>
        rcases hcp : createhsinit C cons ifn3 peerid rS3 rE3 rP3 ts3
          with ⟨o, p2⟩
        cases o with
        | none => simp [handleifnmsg, hfp, hcp]
        | some mX =>
          cases sI3 with
          | false => simp [handleifnmsg, hfp, hcp]
          | true => simp [handleifnmsg, hfp, hcp]
      | other => simp [handleifnmsg, hfp]
  · intro hfp hci
    rcases hcp : createhsinit C cons ifn3 peerid rS3 rE3 rP3 ts3
      with ⟨o, p2⟩
    rw [hcp] at hci
    simp only at hci
    subst hci
    simp [handleifnmsg, hfp, hcp]

/-- C9 witness for the amended claim: a concrete successful consume whose
session-keys send fails returns -1; the same call can never exit when the
connect request is built successfully; and a MSGREQWGINIT whose created
MSGWGINIT fails to send makes handleifnmsg return -1. -/
theorem uwg_c9_witness :
    (handlewginit toyCrypto fxCons fxIfnR none false true true false true
        fxMwiGood fxOob 33 [8] [8]).1 = HOut.failed ∧
    (handlewginit toyCrypto fxCons fxIfnR none true true true true true
        fxMwiGood fxOob 33 [8] [8]).1 ≠ HOut.exited ∧
    (handleifnmsg toyCrypto fxCons fxIfnI 0 IfnMsgType.msgreqwginit
        dummyMwi dummyMwr [] true true false 21 [5] [5] fxTs).1 =
      HOut.failed :=
  ⟨((uwg_c9_amended toyCrypto fxCons fxIfnR fxIfnR fxIfnI none none false
      true false true false true true fxMwiGood fxMwrGood fxOob 33 [8] [8]
      ((upgradehsinit toyCrypto fxCons fxIfnR fxMwiGood none true
        fxOob).getD dummyUhi)
      (((createhsresp toyCrypto fxIfnR.privkey
        ((upgradehsinit toyCrypto fxCons fxIfnR fxMwiGood none true
          fxOob).getD dummyUhi).peer fxMwiGood.sender 33 [8] [8]).1).getD
        dummyMwr) 0 ([], dummyMwr) 0 IfnMsgType.msgreqwginit dummyMwi
      dummyMwr [] true true false 21 [5] [5] fxTs fxPeerI
      ((createhsinit toyCrypto fxCons fxIfnI 0 21 [5] [5] fxTs).1.getD
        dummyMwi)).2.2.1 (by decide) (by decide) (by decide)).1,
   (uwg_c9_amended toyCrypto fxCons fxIfnR fxIfnR fxIfnI none none true
      true true true false true true fxMwiGood fxMwrGood fxOob 33 [8] [8]
      dummyUhi dummyMwr 0 ([], dummyMwr) 0 IfnMsgType.msgreqwginit
      dummyMwi dummyMwr [] true true false 21 [5] [5] fxTs fxPeerI
      dummyMwi).1,
   (uwg_c9_amended toyCrypto fxCons fxIfnR fxIfnR fxIfnI none none true
      true true true false true true fxMwiGood fxMwrGood fxOob 33 [8] [8]
      dummyUhi dummyMwr 0 ([], dummyMwr) 0 IfnMsgType.msgreqwginit
      dummyMwi dummyMwr [] true true false 21 [5] [5] fxTs fxPeerI
      ((createhsinit toyCrypto fxCons fxIfnI 0 21 [5] [5] fxTs).1.getD
        dummyMwi)).2.2.2.2.2 (by decide) (by decide)⟩

/-- C3: for a correctly configured pair of peers (the initiator peer
record carries the responder interface pubkeyhash, DH agreement holds on
the ephemeral-static pair, both sides precomputed the same static-static
dhsecret, and the responder resolves the initiator static key to its peer
record), createhsinit followed by a successful responder-side
upgradehsinit on the produced MsgInit yields identical chaining key hs.c
and identical transcript hash hs.h on both sides. -/
theorem uwg_c3 (C : Crypto) (cons : List Nat) (ifnI ifnR : Ifn)
    (iI iR sid : Nat) (epub epriv ts12 oob : List Nat)
    (hiI : iI < ifnI.peers.length)
    (hdhok : dhfail (C.dh epriv (ifnI.peers.getD iI dummyPeer).pubkey) =
      false)
    (hph : ifnR.pubkeyhash = (ifnI.peers.getD iI dummyPeer).pubkeyhash)
    (hdhA : C.dh ifnR.privkey epub =
      C.dh epriv (ifnI.peers.getD iI dummyPeer).pubkey)
    (hrt : ∀ k h pt, C.aeadOpen k h (C.aeadSeal k h pt) = some pt)
    (hfind : findpeerbypubkey ifnR.peers ifnI.pubkey = some iR)
    (hds : (ifnR.peers.getD iR dummyPeer).dhsecret =
      (ifnI.peers.getD iI dummyPeer).dhsecret)
    (hreplay : ordIsGT (replaycmp (List.take 12 ts12)
      (ifnR.peers.getD iR dummyPeer).recvts oob) = true) :
    (createhsinit C cons ifnI iI sid epub epriv ts12).1.isSome = true ∧
    (upgradehsinit C cons ifnR
      ((createhsinit C cons ifnI iI sid epub epriv ts12).1.getD dummyMwi)
      none true oob).isSome = true ∧
    ((upgradehsinit C cons ifnR
      ((createhsinit C cons ifnI iI sid epub epriv ts12).1.getD dummyMwi)
      none true oob).getD dummyUhi).peer.hs.c =
      (createhsinit C cons ifnI iI sid epub epriv ts12).2.hs.c ∧
    ((upgradehsinit C cons ifnR
      ((createhsinit C cons ifnI iI sid epub epriv ts12).1.getD dummyMwi)
      none true oob).getD dummyUhi).peer.hs.h =
      (createhsinit C cons ifnI iI sid epub epriv ts12).2.hs.h := by
  refine ⟨?_, ?_, ?_, ?_⟩ <;>
    simp [createhsinit, upgradehsinit, upgradehsinitInit, upgradehsinitResp,
      uhiStatPt, uhiTs, uhiCK2r, uhiCK3r, uhiK1r, uhiH1r, uhiH2r, uhiH3r,
      uhiC1, uhiStatCt, uhiTsCt, uhiCK2i, uhiCK3i, uhiK1i, uhiH1i, uhiH2i,
      uhiH3i, kdf1, kdf2, kdf3, kdfT0, assertedMismatch, getD_set_self,
      hiI, hdhok, hph, hdhA, hrt, hfind, hds, hreplay,
      -List.getD_eq_getElem?_getD]

/-- C3 witness: the concrete fixture pair runs the init round trip and
ends with equal chaining keys and transcript hashes. -/
theorem uwg_c3_witness :
    (createhsinit toyCrypto fxCons fxIfnI 0 21 [5] [5] fxTs).1.isSome =
      true ∧
    (upgradehsinit toyCrypto fxCons fxIfnR
      ((createhsinit toyCrypto fxCons fxIfnI 0 21 [5] [5] fxTs).1.getD
        dummyMwi) none true fxOob).isSome = true ∧
    ((upgradehsinit toyCrypto fxCons fxIfnR
      ((createhsinit toyCrypto fxCons fxIfnI 0 21 [5] [5] fxTs).1.getD
        dummyMwi) none true fxOob).getD dummyUhi).peer.hs.c =
      (createhsinit toyCrypto fxCons fxIfnI 0 21 [5] [5] fxTs).2.hs.c ∧
    ((upgradehsinit toyCrypto fxCons fxIfnR
      ((createhsinit toyCrypto fxCons fxIfnI 0 21 [5] [5] fxTs).1.getD
        dummyMwi) none true fxOob).getD dummyUhi).peer.hs.h =
      (createhsinit toyCrypto fxCons fxIfnI 0 21 [5] [5] fxTs).2.hs.h :=
  uwg_c3 toyCrypto fxCons fxIfnI fxIfnR 0 0 21 [5] [5] fxTs fxOob
    (by decide) (by decide) (by decide) (by decide)
    (fun k h pt => toy_aead_rt k h pt) (by decide) (by decide) (by decide)

/-- C4: for two peers whose handshake states agree after the init
exchange (equal chaining key and transcript hash, the responder holding
the initiator ephemeral, DH agreement on both response DH pairs, equal
PSKs), createhsresp on the responder followed by a successful
initiator-side upgradehsresp (responder = 0) on the produced MsgResp
yields identical chaining key hs.c and identical transcript hash hs.h on
both sides (the response step never rewrites hs.h). -/
theorem uwg_c4 (C : Crypto) (xp ifnIpriv : List Nat) (pI pR : Peer)
    (snd rSid : Nat) (repub repriv : List Nat)
    (hc0 : pI.hs.c = pR.hs.c) (hh0 : pI.hs.h = pR.hs.h)
    (hag1 : C.dh repriv pR.hs.epubi = C.dh pI.hs.epriv repub)
    (hdf1 : dhfail (C.dh pI.hs.epriv repub) = false)
    (hag2 : C.dh repriv pR.pubkey = C.dh ifnIpriv repub)
    (hdf2 : dhfail (C.dh ifnIpriv repub) = false)
    (hpsk : pI.psk = pR.psk)
    (hrt : ∀ k h pt, C.aeadOpen k h (C.aeadSeal k h pt) = some pt) :
    (createhsresp C xp pR snd rSid repub repriv).1.isSome = true ∧
    (upgradehsresp C ifnIpriv pI
      ((createhsresp C xp pR snd rSid repub repriv).1.getD dummyMwr)
      false).isSome = true ∧
    ((upgradehsresp C ifnIpriv pI
      ((createhsresp C xp pR snd rSid repub repriv).1.getD dummyMwr)
      false).getD ([], dummyMwr)).1 =
      (createhsresp C xp pR snd rSid repub repriv).2.hs.c ∧
    pI.hs.h = (createhsresp C xp pR snd rSid repub repriv).2.hs.h := by
  refine ⟨?_, ?_, ?_, ?_⟩ <;>
    simp [createhsresp, upgradehsresp, kdf1, kdf2, kdf3, kdfT0, hc0, hh0,
      hag1, hdf1, hag2, hdf2, hpsk, hrt]

/-- C4 witness: concrete agreed post-init states run the response round
trip and end with equal chaining keys and transcript hashes. -/
theorem uwg_c4_witness :
    c4PeerI.hs.c = c4PeerR.hs.c ∧
    ((createhsresp toyCrypto [0] c4PeerR 21 77 [8] [8]).1.isSome = true ∧
      (upgradehsresp toyCrypto [6] c4PeerI
        ((createhsresp toyCrypto [0] c4PeerR 21 77 [8] [8]).1.getD
          dummyMwr) false).isSome = true ∧
      ((upgradehsresp toyCrypto [6] c4PeerI
        ((createhsresp toyCrypto [0] c4PeerR 21 77 [8] [8]).1.getD
          dummyMwr) false).getD ([], dummyMwr)).1 =
        (createhsresp toyCrypto [0] c4PeerR 21 77 [8] [8]).2.hs.c ∧
      c4PeerI.hs.h =
        (createhsresp toyCrypto [0] c4PeerR 21 77 [8] [8]).2.hs.h) :=
  ⟨by decide,
   uwg_c4 toyCrypto [0] [6] c4PeerI c4PeerR 21 77 [8] [8] (by decide)
     (by decide) (by decide) (by decide) (by decide) (by decide)
     (by decide) (fun k h pt => toy_aead_rt k h pt)⟩
